import Mathlib

/-!
Verification of the annotation property schema for the three annotation
variants (`Label`, `LabelSet`, `Title`) declared in
`src/bokeh/models/annotations/labels.py`.

The source file contains only the schema declarations (field names, types,
defaults, enum domains, group includes and overrides).  The property
framework itself (assignment-time validation and conversion, vector-spec
resolution, serialization, and the style-property mixins) lives outside the
excerpt; those parts are modelled from the specification, and each such
definition is marked `Modelled from the spec:` in its doc comment.
-/

namespace Bokeh

/-- A literal value a field can hold: a number, a string, or null (None). -/
inductive Value where
  | num (q : ℚ)
  | str (s : String)
  | null
deriving DecidableEq, Repr

/-- What a field stores after assignment: a literal, or (for vectorizable
"spec" fields only) a reference to a named column of the bound data source. -/
inductive StoredValue where
  | lit (v : Value)
  | column (name : String)
deriving DecidableEq, Repr

/-- A value as supplied by the caller at construction/mutation time.
`datetime ms` is a temporal value identified by its milliseconds-since-epoch;
it exists only at the assignment boundary and is never stored. -/
inductive RawValue where
  | lit (v : Value)
  | column (name : String)
  | datetime (ms : Int)
deriving DecidableEq, Repr

/-- The error taxonomy of the schema layer (spec section 7). -/
inductive SchemaError where
  | UnknownVariant
  | InvalidField
  | InvalidValue
  | MissingColumn
  | RowIndexRequired
deriving DecidableEq, Repr

/-- The semantic type of a field: numeric, string-like (plain strings and
colors), or an enumeration over a fixed domain of string literals. -/
inductive FieldType where
  | numeric
  | stringy
  | enum (domain : List String)
deriving DecidableEq, Repr

/-- A field descriptor: name, semantic type, whether null is rejected,
whether the field may hold a column reference (vector spec), whether a
datetime value is accepted (and converted) on assignment, and the default
stored value (`none` when the field has no default and is left unset). -/
structure FieldSpec where
  name : String
  ftype : FieldType
  nonNull : Bool
  vectorizable : Bool
  acceptsDatetime : Bool
  default : Option StoredValue
deriving DecidableEq, Repr

/-- Modelled from the spec: the enum domain of `SpatialUnits`
("data" | "screen"); the enum class itself is outside the excerpt. -/
def spatialUnits : List String := ["data", "screen"]

/-- The enum domain of `AngleUnits`; the source docstring states the
acceptable values are "rad" and "deg". -/
def angleUnits : List String := ["rad", "deg"]

/-- The enum domain of `FontStyle`; the source docstring for
`Title.text_font_style` lists "normal", "italic", "bold". -/
def fontStyle : List String := ["normal", "italic", "bold"]

/-- Modelled from the spec: the enum domain of `VerticalAlign`
(default "bottom"); the enum class itself is outside the excerpt. -/
def verticalAlign : List String := ["top", "middle", "bottom"]

/-- Modelled from the spec: the enum domain of `TextAlign`
(default "left"); the enum class itself is outside the excerpt. -/
def textAlign : List String := ["left", "right", "center"]

/-- Helper: a scalar numeric field with a literal default. -/
def numField (n : String) (d : ℚ) : FieldSpec :=
  { name := n, ftype := .numeric, nonNull := false, vectorizable := false,
    acceptsDatetime := false, default := some (.lit (.num d)) }

/-- Helper: a scalar string field with a literal default. -/
def strField (n : String) (d : String) : FieldSpec :=
  { name := n, ftype := .stringy, nonNull := false, vectorizable := false,
    acceptsDatetime := false, default := some (.lit (.str d)) }

/-- Helper: a scalar enum field with its domain and literal default. -/
def enumField (n : String) (dom : List String) (d : String) : FieldSpec :=
  { name := n, ftype := .enum dom, nonNull := true, vectorizable := false,
    acceptsDatetime := false, default := some (.lit (.str d)) }

/-- Helper: a vectorizable numeric field (a `NumberSpec`/`AngleSpec`). -/
def numSpecField (n : String) (d : StoredValue) : FieldSpec :=
  { name := n, ftype := .numeric, nonNull := false, vectorizable := true,
    acceptsDatetime := false, default := some d }

/-- Helper: a vectorizable string field (a `StringSpec`). -/
def strSpecField (n : String) (d : StoredValue) : FieldSpec :=
  { name := n, ftype := .stringy, nonNull := false, vectorizable := true,
    acceptsDatetime := false, default := some d }

/-- Modelled from the spec: the scalar fill style group (`ScalarFillProps`),
outside the excerpt.  Only the sub-fields the claims touch are included; what
matters is that the group default of `fill_color` is a non-unset value. -/
def scalarFillProps : List FieldSpec :=
  [strField "fill_color" "gray", numField "fill_alpha" 1]

/-- Modelled from the spec: the scalar line style group (`ScalarLineProps`),
outside the excerpt.  The group default of `line_color` is non-unset. -/
def scalarLineProps : List FieldSpec :=
  [strField "line_color" "black", numField "line_alpha" 1,
   numField "line_width" 1]

/-- Modelled from the spec: the scalar text style group (`ScalarTextProps`),
outside the excerpt. -/
def scalarTextProps : List FieldSpec :=
  [strField "text_font" "helvetica", strField "text_font_size" "16px",
   enumField "text_font_style" fontStyle "normal",
   strField "text_color" "#444444", numField "text_alpha" 1]

/-- Mark every field of a group as vectorizable: the `FillProps`/`LineProps`/
`TextProps` variants of the scalar groups, whose sub-fields are
independently literal-or-column. -/
def vectorized (fields : List FieldSpec) : List FieldSpec :=
  fields.map fun fs => { fs with vectorizable := true }

/-- `Include(group, prefix=pre)`: flatten a style group under a name prefix
(`fill_color` becomes `background_fill_color` under "background"). -/
def includeProps (pre : String) (fields : List FieldSpec) : List FieldSpec :=
  fields.map fun fs => { fs with name := pre ++ "_" ++ fs.name }

/-- `Override(default=...)`: replace the default of a named field. -/
def overrideDefault (fields : List FieldSpec) (n : String)
    (d : Option StoredValue) : List FieldSpec :=
  fields.map fun fs => if fs.name == n then { fs with default := d } else fs

/-- The field set of `Label`, translated declaration by declaration from
`labels.py` lines 100-164: `x`/`y` are non-nullable floats with no default
that accept datetimes (converted to milliseconds-since-epoch), units are
`SpatialUnits` enums defaulting to "data", `text` defaults to `""`, `angle`
to 0 with `angle_units` defaulting to "rad", offsets default to 0; scalar
text, background-fill and border-line groups follow, with
`background_fill_color` and `border_line_color` overridden to None. -/
def labelFields : List FieldSpec :=
  overrideDefault (overrideDefault (
    [{ name := "x", ftype := .numeric, nonNull := true, vectorizable := false,
       acceptsDatetime := true, default := none },
     enumField "x_units" spatialUnits "data",
     { name := "y", ftype := .numeric, nonNull := true, vectorizable := false,
       acceptsDatetime := true, default := none },
     enumField "y_units" spatialUnits "data",
     strField "text" "",
     numField "angle" 0,
     enumField "angle_units" angleUnits "rad",
     numField "x_offset" 0,
     numField "y_offset" 0]
    ++ scalarTextProps
    ++ includeProps "background" scalarFillProps
    ++ includeProps "border" scalarLineProps)
    "background_fill_color" (some (.lit .null)))
    "border_line_color" (some (.lit .null))

/-- The field set of `LabelSet`, translated from `labels.py` lines 191-245:
`x`, `y`, `text` are vector specs defaulting to the columns "x", "y",
"text"; `angle`, `x_offset`, `y_offset` are vector specs defaulting to the
literal 0; `x_units`/`y_units` are plain scalar `SpatialUnits` enums; the
style groups are the vectorizable variants, with `background_fill_color`
and `border_line_color` overridden to None. -/
def labelSetFields : List FieldSpec :=
  overrideDefault (overrideDefault (
    [numSpecField "x" (.column "x"),
     enumField "x_units" spatialUnits "data",
     numSpecField "y" (.column "y"),
     enumField "y_units" spatialUnits "data",
     strSpecField "text" (.column "text"),
     numSpecField "angle" (.lit (.num 0)),
     numSpecField "x_offset" (.lit (.num 0)),
     numSpecField "y_offset" (.lit (.num 0))]
    ++ vectorized scalarTextProps
    ++ includeProps "background" (vectorized scalarFillProps)
    ++ includeProps "border" (vectorized scalarLineProps))
    "background_fill_color" (some (.lit .null)))
    "border_line_color" (some (.lit .null))

/-- The field set of `Title`, translated from `labels.py` lines 254-323:
`text` defaults to "", `vertical_align` to "bottom", `align` to "left",
`text_line_height` to 1.0, `offset` to 0, `standoff` to 10, `text_font` to
"helvetica", `text_font_size` to "13px", `text_font_style` to "bold",
`text_color` to "#444444", `text_alpha` to 1; background-fill and
border-line groups follow with their color defaults overridden to None. -/
def titleFields : List FieldSpec :=
  overrideDefault (overrideDefault (
    [strField "text" "",
     enumField "vertical_align" verticalAlign "bottom",
     enumField "align" textAlign "left",
     numField "text_line_height" 1,
     numField "offset" 0,
     numField "standoff" 10,
     strField "text_font" "helvetica",
     strField "text_font_size" "13px",
     enumField "text_font_style" fontStyle "bold",
     strField "text_color" "#444444",
     numField "text_alpha" 1]
    ++ includeProps "background" scalarFillProps
    ++ includeProps "border" scalarLineProps)
    "background_fill_color" (some (.lit .null)))
    "border_line_color" (some (.lit .null))

/-- `Define(variant)`: the field set of a variant by name; unknown variant
names fail with `UnknownVariant` (spec section 4.1). -/
def define (variant : String) : Except SchemaError (List FieldSpec) :=
  if variant == "Label" then .ok labelFields
  else if variant == "LabelSet" then .ok labelSetFields
  else if variant == "Title" then .ok titleFields
  else .error .UnknownVariant

/-- An instance's observable state: an association list from field name to
stored value; the most recent write (front-most entry) shadows older ones. -/
abbrev Instance := List (String × StoredValue)

/-- Read a field of an instance. -/
def getField (inst : Instance) (n : String) : Option StoredValue :=
  (inst.find? fun p => p.1 == n).map Prod.snd

/-- Write a field of an instance (last write wins on reads). -/
def setField (inst : Instance) (n : String) (sv : StoredValue) : Instance :=
  (n, sv) :: inst

/-- Look a field descriptor up by name. -/
def findSpec (fields : List FieldSpec) (n : String) : Option FieldSpec :=
  fields.find? fun fs => fs.name == n

/-- The instance state holding every field's default; fields without a
default are left unset. -/
def defaults (fields : List FieldSpec) : Instance :=
  fields.filterMap fun fs => fs.default.map fun d => (fs.name, d)

/-- Modelled from the spec: the literal-value validation rule of the
property framework (outside the excerpt).  Null is rejected for non-null
fields and for enum fields; a number fits only a numeric field; a string
fits a string field, and an enum field only when it lies in the domain. -/
def valueOk (ft : FieldType) (nn : Bool) (v : Value) : Bool :=
  match v with
  | .null => !nn && (match ft with | .enum _ => false | _ => true)
  | .num _ => (match ft with | .numeric => true | _ => false)
  | .str s => (match ft with
      | .stringy => true
      | .enum dom => dom.contains s
      | .numeric => false)

/-- Modelled from the spec: whether a stored value is admissible for a
field.  A column reference is admissible only for a vectorizable field; a
literal must pass `valueOk`. -/
def checkStored (fs : FieldSpec) : StoredValue → Bool
  | .column _ => fs.vectorizable
  | .lit v => valueOk fs.ftype fs.nonNull v

/-- Modelled from the spec: assignment-time validation — a stored value
that fails `checkStored` is rejected with `InvalidValue`. -/
def checkSV (fs : FieldSpec) (sv : StoredValue) : Except SchemaError StoredValue :=
  if checkStored fs sv then .ok sv else .error .InvalidValue

/-- Modelled from the spec: assignment-time normalization.  A datetime value
is converted to its milliseconds-since-epoch numeric equivalent right here —
only for a field that accepts datetimes — and the result (like any other
value) is validated by `checkSV`. -/
def checkedValue (fs : FieldSpec) (rv : RawValue) : Except SchemaError StoredValue :=
  match rv with
  | .datetime ms =>
      if fs.acceptsDatetime then checkSV fs (.lit (.num (ms : ℚ)))
      else .error .InvalidValue
  | .lit v => checkSV fs (.lit v)
  | .column c => checkSV fs (.column c)

/-- Apply one override/mutation to an instance: an unknown field name is
`InvalidField`; otherwise the value is normalized and validated and, on
success, written. -/
def applyOverride (fields : List FieldSpec) (inst : Instance)
    (ov : String × RawValue) : Except SchemaError Instance :=
  match findSpec fields ov.1 with
  | none => .error .InvalidField
  | some fs =>
    match checkedValue fs ov.2 with
    | .error e => .error e
    | .ok sv => .ok (setField inst fs.name sv)

/-- Apply a list of overrides in order; the first failure aborts. -/
def applyOverrides (fields : List FieldSpec) (init : Instance) :
    List (String × RawValue) → Except SchemaError Instance
  | [] => .ok init
  | ov :: rest =>
    match applyOverride fields init ov with
    | .error e => .error e
    | .ok init2 => applyOverrides fields init2 rest

/-- Modelled from the spec: `Construct(variant, overrides)` builds an
instance by applying the overrides in order on top of the defaults; the
first validation failure aborts the whole call. -/
def construct (fields : List FieldSpec) (overrides : List (String × RawValue)) :
    Except SchemaError Instance :=
  applyOverrides fields (defaults fields) overrides

/-- Modelled from the spec: `Mutate(instance, field, value)` applies the
same validation as `Construct` to a single post-construction write. -/
def mutate (fields : List FieldSpec) (inst : Instance) (n : String)
    (rv : RawValue) : Except SchemaError Instance :=
  applyOverride fields inst (n, rv)

/-- The state transition a `Mutate` call induces: on success the updated
instance, on failure the untouched input instance together with the error
(the observable form of atomic per-call validation). -/
def mutateOrKeep (fields : List FieldSpec) (inst : Instance) (n : String)
    (rv : RawValue) : Instance × Option SchemaError :=
  match mutate fields inst n rv with
  | .ok inst2 => (inst2, none)
  | .error e => (inst, some e)

/-- The external tabular data source: named columns of values
(spec section 6: `GetColumn(name) → sequence of values`). -/
abbrev DataSource := List (String × List Value)

/-- Fetch a named column from a data source. -/
def getColumn (src : DataSource) (n : String) : Option (List Value) :=
  (src.find? fun p => p.1 == n).map Prod.snd

/-- Modelled from the spec: `Resolve(instance, field, rowIndex?)` — a field
holding a literal resolves to that literal; a field set to a column
reference requires a `rowIndex` (`RowIndexRequired` when absent) and looks
the row up in the named column of the bound source (`MissingColumn` when
the column is absent).  The spec leaves an unknown field, an unset field
and an out-of-range row index unspecified; they are reported as
`InvalidField` / `InvalidValue` here, and no claim depends on them. -/
def resolve (fields : List FieldSpec) (src : DataSource) (inst : Instance)
    (n : String) (rowIndex : Option Nat) : Except SchemaError Value :=
  match findSpec fields n with
  | none => .error .InvalidField
  | some _ =>
    match getField inst n with
    | none => .error .InvalidValue
    | some (.lit v) => .ok v
    | some (.column c) =>
      match rowIndex with
      | none => .error .RowIndexRequired
      | some i =>
        match getColumn src c with
        | none => .error .MissingColumn
        | some col =>
          match col.get? i with
          | some v => .ok v
          | none => .error .InvalidValue

/-- Modelled from the spec: the serialization boundary — an instance is
translated to a flat mapping from field name to (literal value |
column-reference marker), one entry per schema field that has a value, in
schema order. -/
def serialize (fields : List FieldSpec) (inst : Instance) :
    List (String × StoredValue) :=
  fields.filterMap fun fs => (getField inst fs.name).map fun sv => (fs.name, sv)

/-- Apply one serialized entry while reconstructing an instance: the field
must exist in the schema and the stored value must be admissible for it. -/
def applyStored (fields : List FieldSpec) (inst : Instance)
    (p : String × StoredValue) : Except SchemaError Instance :=
  match findSpec fields p.1 with
  | none => .error .InvalidField
  | some fs =>
    if checkStored fs p.2 then .ok (setField inst fs.name p.2)
    else .error .InvalidValue

/-- Replay a list of serialized entries in order; the first failure aborts. -/
def applyStoredList (fields : List FieldSpec) (init : Instance) :
    List (String × StoredValue) → Except SchemaError Instance
  | [] => .ok init
  | p :: rest =>
    match applyStored fields init p with
    | .error e => .error e
    | .ok init2 => applyStoredList fields init2 rest

/-- Modelled from the spec: reconstruct an instance from a serialized
mapping by replaying its entries, with full validation, on top of the
variant's defaults. -/
def deserialize (fields : List FieldSpec) (m : List (String × StoredValue)) :
    Except SchemaError Instance :=
  applyStoredList fields (defaults fields) m

/-- An instance is well formed for a field set when every schema field that
has a value holds an admissible one, and every unset schema field is one
without a default.  `construct` only produces well-formed instances. -/
def wellFormed (fields : List FieldSpec) (inst : Instance) : Bool :=
  fields.all fun fs =>
    match getField inst fs.name with
    | some sv => checkStored fs sv
    | none => fs.default == none

/-- Field names of a schema are pairwise distinct. -/
abbrev nodupNames (fields : List FieldSpec) : Prop :=
  (fields.map FieldSpec.name).Nodup

/-! ### Helper lemmas about the state operations -/

theorem getField_cons (n g : String) (sv : StoredValue) (inst : Instance) :
    getField ((n, sv) :: inst) g = if n = g then some sv else getField inst g := by
  simp only [getField, List.find?_cons]
  rcases eq_or_ne n g with h | h
  · subst h; simp
  · simp [beq_eq_false_iff_ne.mpr h, h]

theorem findSpec_name {fields : List FieldSpec} {n : String} {fs : FieldSpec}
    (h : findSpec fields n = some fs) : fs.name = n := by
  have := List.find?_some h
  simpa using this

theorem checkSV_ok {fs : FieldSpec} {sv sv2 : StoredValue}
    (h : checkSV fs sv = .ok sv2) : sv2 = sv ∧ checkStored fs sv = true := by
  unfold checkSV at h
  split at h <;> simp_all

theorem checkedValue_ok {fs : FieldSpec} {rv : RawValue} {sv : StoredValue}
    (h : checkedValue fs rv = .ok sv) : checkStored fs sv = true := by
  rcases rv with v | c | ms <;> simp only [checkedValue] at h
  · exact (checkSV_ok h).1 ▸ (checkSV_ok h).2
  · exact (checkSV_ok h).1 ▸ (checkSV_ok h).2
  · split at h
    · exact (checkSV_ok h).1 ▸ (checkSV_ok h).2
    · exact absurd h (by simp)

theorem applyOverride_ok {fields : List FieldSpec} {inst inst2 : Instance}
    {ov : String × RawValue}
    (h : applyOverride fields inst ov = .ok inst2) :
    ∃ fs sv, findSpec fields ov.1 = some fs ∧ checkedValue fs ov.2 = .ok sv ∧
      inst2 = setField inst fs.name sv := by
  unfold applyOverride at h
  rcases hfs : findSpec fields ov.1 with _ | fs
  · rw [hfs] at h; exact absurd h (by simp)
  · rw [hfs] at h
    dsimp only at h
    rcases hcv : checkedValue fs ov.2 with e | sv
    · rw [hcv] at h; exact absurd h (by simp)
    · rw [hcv] at h
      simp only [Except.ok.injEq] at h
      exact ⟨fs, sv, rfl, hcv, h.symm⟩

/-- Every field of an instance produced by replaying overrides either still
reads as it did initially or holds a value validated against its own
descriptor. -/
theorem applyOverrides_invariant {fields : List FieldSpec}
    (ovs : List (String × RawValue)) (init inst : Instance)
    (h : applyOverrides fields init ovs = .ok inst) (n : String) :
    getField inst n = getField init n ∨
      ∃ fs sv, findSpec fields n = some fs ∧ getField inst n = some sv ∧
        checkStored fs sv = true := by
  induction ovs generalizing init with
  | nil =>
    left
    simp only [applyOverrides, Except.ok.injEq] at h
    rw [h]
  | cons ov rest ih =>
    simp only [applyOverrides] at h
    rcases hstep : applyOverride fields init ov with e | init2
    · rw [hstep] at h; exact absurd h (by simp)
    · rw [hstep] at h
      obtain ⟨fs, sv, hfs, hcv, rfl⟩ := applyOverride_ok hstep
      rcases ih _ h with h2 | h2
      · rw [h2, setField, getField_cons]
        rcases eq_or_ne fs.name n with he | he
        · right
          refine ⟨fs, sv, ?_, ?_, checkedValue_ok hcv⟩
          · rwa [← findSpec_name hfs, he] at hfs
          · simp [he]
        · left; simp [he]
      · right; exact h2

theorem checkStored_null_false {fs : FieldSpec} (h : fs.nonNull = true) :
    checkStored fs (.lit .null) = false := by
  simp [checkStored, valueOk, h]

/-- Fields of a constructed instance never hold null when their descriptor
is non-nullable and their default is not null. -/
theorem no_null_stored {fields : List FieldSpec} {ovs : List (String × RawValue)}
    {inst : Instance} {n : String}
    (h : construct fields ovs = .ok inst)
    (hdef : getField (defaults fields) n ≠ some (.lit .null))
    (hnn : (findSpec fields n).all FieldSpec.nonNull = true) :
    getField inst n ≠ some (.lit .null) := by
  intro hnull
  rcases applyOverrides_invariant ovs _ inst h n with h2 | ⟨fs, sv, h1, h2, h3⟩
  · exact hdef (h2 ▸ hnull)
  · rw [h1] at hnn
    simp only [Option.all_some] at hnn
    have hsv : sv = .lit .null := by
      rw [h2] at hnull; exact Option.some.inj hnull
    rw [hsv] at h3
    rw [checkStored_null_false hnn] at h3
    exact Bool.false_ne_true h3

/-! ### Lemmas for the serialization round-trip -/

theorem getField_append_of_not_key {m : List (String × StoredValue)}
    {n : String} (h : n ∉ m.map Prod.fst) (l2 : Instance) :
    getField (m ++ l2) n = getField l2 n := by
  induction m with
  | nil => rfl
  | cons p rest ih =>
    simp only [List.map_cons, List.mem_cons, not_or] at h
    rcases p with ⟨k, v⟩
    rw [List.cons_append, getField_cons]
    simp only at h
    rw [if_neg (by exact fun he => h.1 he.symm)]
    exact ih h.2

theorem getField_append_of_key {m : List (String × StoredValue)}
    {n : String} {sv : StoredValue} (hnd : (m.map Prod.fst).Nodup)
    (hmem : (n, sv) ∈ m) (l2 : Instance) :
    getField (m ++ l2) n = some sv := by
  induction m with
  | nil => simp at hmem
  | cons p rest ih =>
    rcases p with ⟨k, v⟩
    simp only [List.map_cons, List.nodup_cons] at hnd
    rw [List.cons_append, getField_cons]
    rcases List.mem_cons.mp hmem with he | hm
    · obtain ⟨rfl, rfl⟩ := Prod.mk.injEq .. ▸ he
      · simp
    · have hk : k ≠ n := by
        intro he
        apply hnd.1
        rw [he]
        exact List.mem_map.mpr ⟨(n, sv), hm, rfl⟩
      rw [if_neg hk]
      exact ih hnd.2 hm

theorem findSpec_of_mem {fields : List FieldSpec} {fs : FieldSpec}
    (hnd : nodupNames fields) (hmem : fs ∈ fields) :
    findSpec fields fs.name = some fs := by
  induction fields with
  | nil => exact (List.not_mem_nil _ hmem).elim
  | cons g rest ih =>
    simp only [nodupNames, List.map_cons, List.nodup_cons] at hnd
    rcases List.mem_cons.mp hmem with rfl | hm
    · simp [findSpec, List.find?_cons]
    · have hg : g.name ≠ fs.name := by
        intro he
        exact hnd.1 (he ▸ List.mem_map.mpr ⟨fs, hm, rfl⟩)
      have hb : (g.name == fs.name) = false := beq_eq_false_iff_ne.mpr hg
      simp only [findSpec, List.find?_cons, hb]
      exact ih hnd.2 hm

theorem name_inj {fields : List FieldSpec} {fs fs2 : FieldSpec}
    (hnd : nodupNames fields) (h1 : fs ∈ fields) (h2 : fs2 ∈ fields)
    (he : fs.name = fs2.name) : fs = fs2 :=
  List.inj_on_of_nodup_map hnd h1 h2 he

theorem getField_defaults_not_mem {fields : List FieldSpec} {n : String}
    (h : n ∉ fields.map FieldSpec.name) :
    getField (defaults fields) n = none := by
  induction fields with
  | nil => rfl
  | cons g rest ih =>
    simp only [List.map_cons, List.mem_cons, not_or] at h
    simp only [defaults, List.filterMap_cons]
    rcases hd : g.default with _ | d
    · exact ih h.2
    · simp only [Option.map_some']
      rw [show (List.filterMap (fun fs => Option.map (fun d => (fs.name, d)) fs.default) rest) = defaults rest from rfl]
      rw [getField_cons, if_neg (fun he => h.1 he.symm)]
      exact ih h.2

theorem getField_defaults {fields : List FieldSpec} {fs : FieldSpec}
    (hnd : nodupNames fields) (hmem : fs ∈ fields) :
    getField (defaults fields) fs.name = fs.default := by
  induction fields with
  | nil => exact (List.not_mem_nil _ hmem).elim
  | cons g rest ih =>
    simp only [nodupNames, List.map_cons, List.nodup_cons] at hnd
    simp only [defaults, List.filterMap_cons]
    rcases List.mem_cons.mp hmem with rfl | hm
    · rcases hd : fs.default with _ | d
      · rw [show (List.filterMap (fun fs => Option.map (fun d => (fs.name, d)) fs.default) rest) = defaults rest from rfl]
        exact getField_defaults_not_mem hnd.1
      · simp only [Option.map_some']
        rw [show (List.filterMap (fun fs => Option.map (fun d => (fs.name, d)) fs.default) rest) = defaults rest from rfl]
        rw [getField_cons, if_pos rfl]
    · have hg : g.name ≠ fs.name := by
        intro he
        exact hnd.1 (he ▸ List.mem_map.mpr ⟨fs, hm, rfl⟩)
      rcases hd : g.default with _ | d
      · rw [show (List.filterMap (fun fs => Option.map (fun d => (fs.name, d)) fs.default) rest) = defaults rest from rfl]
        exact ih hnd.2 hm
      · simp only [Option.map_some']
        rw [show (List.filterMap (fun fs => Option.map (fun d => (fs.name, d)) fs.default) rest) = defaults rest from rfl]
        rw [getField_cons, if_neg hg]
        exact ih hnd.2 hm

theorem serialize_keys_sublist (fields : List FieldSpec) (inst : Instance) :
    ((serialize fields inst).map Prod.fst).Sublist (fields.map FieldSpec.name) := by
  induction fields with
  | nil => simp [serialize]
  | cons g rest ih =>
    simp only [serialize, List.filterMap_cons, List.map_cons]
    rcases hg : getField inst g.name with _ | sv
    · exact ih.cons _
    · simp only [Option.map_some', List.map_cons]
      exact ih.cons₂ _

theorem serialize_keys_nodup {fields : List FieldSpec} (inst : Instance)
    (hnd : nodupNames fields) :
    ((serialize fields inst).map Prod.fst).Nodup :=
  hnd.sublist (serialize_keys_sublist fields inst)

theorem mem_serialize {fields : List FieldSpec} {inst : Instance}
    {p : String × StoredValue} (h : p ∈ serialize fields inst) :
    ∃ fs ∈ fields, fs.name = p.1 ∧ getField inst fs.name = some p.2 := by
  simp only [serialize, List.mem_filterMap] at h
  obtain ⟨fs, hfs, hmap⟩ := h
  rcases hg : getField inst fs.name with _ | sv
  · rw [hg] at hmap; simp at hmap
  · rw [hg] at hmap
    simp only [Option.map_some', Option.some.injEq] at hmap
    exact ⟨fs, hfs, by rw [← hmap], by rw [hg, ← hmap]⟩

theorem serialize_mem_of_get {fields : List FieldSpec} {inst : Instance}
    {fs : FieldSpec} {sv : StoredValue} (hfs : fs ∈ fields)
    (hget : getField inst fs.name = some sv) :
    (fs.name, sv) ∈ serialize fields inst := by
  simp only [serialize, List.mem_filterMap]
  exact ⟨fs, hfs, by rw [hget]; rfl⟩

theorem applyStoredList_ok {fields : List FieldSpec}
    (m : List (String × StoredValue)) (init : Instance)
    (hm : ∀ p ∈ m, ∃ fs, findSpec fields p.1 = some fs ∧
      checkStored fs p.2 = true) :
    applyStoredList fields init m = .ok (m.reverse ++ init) := by
  induction m generalizing init with
  | nil => simp [applyStoredList]
  | cons p rest ih =>
    obtain ⟨fs, hfs, hchk⟩ := hm p (List.mem_cons_self p rest)
    simp only [applyStoredList, applyStored]
    rw [hfs]
    dsimp only
    rw [if_pos hchk]
    dsimp only
    rw [ih _ (fun q hq => hm q (List.mem_cons_of_mem p hq))]
    rw [setField, findSpec_name hfs]
    simp

/-! ### Claim theorems -/

/-- C1: assigning a datetime value to `Label.x` or `Label.y` converts it to
its milliseconds-since-epoch numeric equivalent at assignment time — both
through `Mutate` on any instance and through `Construct` — and every
subsequent read of the field returns that numeric value (the stored
representation has no temporal constructor at all, so the original
temporal form is gone). -/
theorem label_datetime_assignment (inst : Instance) (ms : Int) :
    mutate labelFields inst "x" (.datetime ms)
        = .ok (setField inst "x" (.lit (.num (ms : ℚ)))) ∧
    mutate labelFields inst "y" (.datetime ms)
        = .ok (setField inst "y" (.lit (.num (ms : ℚ)))) ∧
    getField (setField inst "x" (.lit (.num (ms : ℚ)))) "x"
        = some (.lit (.num (ms : ℚ))) ∧
    getField (setField inst "y" (.lit (.num (ms : ℚ)))) "y"
        = some (.lit (.num (ms : ℚ))) ∧
    ∃ inst2, construct labelFields [("x", .datetime ms), ("y", .datetime ms)]
        = .ok inst2 ∧
      getField inst2 "x" = some (.lit (.num (ms : ℚ))) ∧
      getField inst2 "y" = some (.lit (.num (ms : ℚ))) :=
  ⟨rfl, rfl, rfl, rfl, _, rfl, rfl, rfl⟩

/-- Witness for C1: a concrete timestamp (2021-01-01T00:00:00Z in
milliseconds) assigned to `x` is stored as the number 1609459200000. -/
theorem label_datetime_assignment_witness :
    mutate labelFields [] "x" (.datetime 1609459200000)
        = .ok (setField [] "x" (.lit (.num ((1609459200000 : Int) : ℚ)))) :=
  (label_datetime_assignment [] 1609459200000).1

/-- C2: `Resolve` returns the literal for a literal-valued field; for a
field set to a column reference it requires a row index
(`RowIndexRequired` when absent) and returns the element at that index of
the bound source's column (`MissingColumn` when the column is absent); in
particular the default `LabelSet.text` resolved at row 2 against a source
whose `text` column is ["a","b","c"] yields "c". -/
theorem resolve_semantics :
    (∀ (fields : List FieldSpec) (src : DataSource) (inst : Instance)
        (n : String) (v : Value) (ri : Option Nat),
      (findSpec fields n).isSome = true → getField inst n = some (.lit v) →
      resolve fields src inst n ri = .ok v) ∧
    (∀ (fields : List FieldSpec) (src : DataSource) (inst : Instance)
        (n c : String) (i : Nat) (col : List Value) (v : Value),
      (findSpec fields n).isSome = true → getField inst n = some (.column c) →
      getColumn src c = some col → col.get? i = some v →
      resolve fields src inst n (some i) = .ok v) ∧
    (∀ (fields : List FieldSpec) (src : DataSource) (inst : Instance)
        (n c : String) (i : Nat),
      (findSpec fields n).isSome = true → getField inst n = some (.column c) →
      getColumn src c = none →
      resolve fields src inst n (some i) = .error .MissingColumn) ∧
    (∀ (fields : List FieldSpec) (src : DataSource) (inst : Instance)
        (n c : String),
      (findSpec fields n).isSome = true → getField inst n = some (.column c) →
      resolve fields src inst n none = .error .RowIndexRequired) ∧
    resolve labelSetFields [("text", [.str "a", .str "b", .str "c"])]
        (defaults labelSetFields) "text" (some 2) = .ok (.str "c") := by
  refine ⟨?_, ?_, ?_, ?_, rfl⟩
  · intro fields src inst n v ri hf hget
    rcases hfs : findSpec fields n with _ | fs
    · rw [hfs] at hf; simp at hf
    · unfold resolve; rw [hfs, hget]
  · intro fields src inst n c i col v hf hget hcol hv
    rcases hfs : findSpec fields n with _ | fs
    · rw [hfs] at hf; simp at hf
    · unfold resolve; rw [hfs, hget]
      dsimp only
      rw [hcol]
      dsimp only
      rw [hv]
  · intro fields src inst n c i hf hget hcol
    rcases hfs : findSpec fields n with _ | fs
    · rw [hfs] at hf; simp at hf
    · unfold resolve; rw [hfs, hget]
      dsimp only
      rw [hcol]
  · intro fields src inst n c hf hget
    rcases hfs : findSpec fields n with _ | fs
    · rw [hfs] at hf; simp at hf
    · unfold resolve; rw [hfs, hget]

/-- Witness for C2: the four resolution rules observed at concrete inputs —
the default `LabelSet` against the source whose `text` column is
["a","b","c"]: the literal-valued `angle` resolves to 0, the column-backed
`text` at row 2 to "c", `text` against an empty source to `MissingColumn`,
and `text` without a row index to `RowIndexRequired`. -/
theorem resolve_semantics_witness :
    resolve labelSetFields [("text", [.str "a", .str "b", .str "c"])]
        (defaults labelSetFields) "angle" none = .ok (.num 0) ∧
    resolve labelSetFields [("text", [.str "a", .str "b", .str "c"])]
        (defaults labelSetFields) "text" (some 2) = .ok (.str "c") ∧
    resolve labelSetFields [] (defaults labelSetFields) "text" (some 0)
        = .error .MissingColumn ∧
    resolve labelSetFields [("text", [.str "a", .str "b", .str "c"])]
        (defaults labelSetFields) "text" none = .error .RowIndexRequired :=
  ⟨resolve_semantics.1 labelSetFields _ _ "angle" (.num 0) none (by decide) rfl,
   resolve_semantics.2.1 labelSetFields _ _ "text" "text" 2
     [.str "a", .str "b", .str "c"] (.str "c") (by decide) rfl rfl rfl,
   resolve_semantics.2.2.1 labelSetFields [] _ "text" "text" 0
     (by decide) rfl rfl,
   resolve_semantics.2.2.2.1 labelSetFields _ _ "text" "text"
     (by decide) rfl⟩

/-- C3: assigning a literal outside the declared domain of an enum-typed
field is rejected at assignment time with `InvalidValue`; on `Label`, the
domain of `x_units` and `y_units` is exactly \x7b"data","screen"\x7d with
default "data", and the domain of `angle_units` is exactly
\x7b"rad","deg"\x7d with default "rad". -/
theorem enum_assignment_validation :
    (∀ (fields : List FieldSpec) (inst : Instance) (n : String)
        (fs : FieldSpec) (dom : List String) (v : Value),
      findSpec fields n = some fs → fs.ftype = .enum dom →
      (match v with | .str s => s ∉ dom | _ => True) →
      mutate fields inst n (.lit v) = .error .InvalidValue) ∧
    (∃ fs, findSpec labelFields "x_units" = some fs ∧
      fs.ftype = .enum ["data", "screen"] ∧
      fs.default = some (.lit (.str "data"))) ∧
    (∃ fs, findSpec labelFields "y_units" = some fs ∧
      fs.ftype = .enum ["data", "screen"] ∧
      fs.default = some (.lit (.str "data"))) ∧
    (∃ fs, findSpec labelFields "angle_units" = some fs ∧
      fs.ftype = .enum ["rad", "deg"] ∧
      fs.default = some (.lit (.str "rad"))) := by
  refine ⟨?_, ?_, ?_, ?_⟩
  · intro fields inst n fs dom v hfs hty hout
    unfold mutate applyOverride
    rw [hfs]
    dsimp only
    have hchk : checkStored fs (.lit v) = false := by
      rcases v with q | s | _
      · simp [checkStored, valueOk, hty]
      · simp only [checkStored, valueOk, hty]
        simpa using hout
      · simp [checkStored, valueOk, hty]
    rw [show checkedValue fs (.lit v) = .error .InvalidValue by
      simp [checkedValue, checkSV, hchk]]
  · exact ⟨enumField "x_units" spatialUnits "data", by decide, by decide, by decide⟩
  · exact ⟨enumField "y_units" spatialUnits "data", by decide, by decide, by decide⟩
  · exact ⟨enumField "angle_units" angleUnits "rad", by decide, by decide, by decide⟩

/-- Witness for C3: setting `x_units` to "pixels" — outside
\x7b"data","screen"\x7d — fails with `InvalidValue`. -/
theorem enum_assignment_validation_witness :
    mutate labelFields [] "x_units" (.lit (.str "pixels"))
        = .error .InvalidValue :=
  enum_assignment_validation.1 labelFields [] "x_units"
    (enumField "x_units" spatialUnits "data") ["data", "screen"]
    (.str "pixels") (by decide) (by decide) (by decide)

/-- C4: constructing a `Label` with `x` or `y` explicitly set to null fails
with `InvalidValue` (likewise any later mutation to null), and the stored
`x` and `y` of any successfully constructed `Label` are never null. -/
theorem label_xy_never_null :
    construct labelFields [("x", .lit .null)] = .error .InvalidValue ∧
    construct labelFields [("y", .lit .null)] = .error .InvalidValue ∧
    (∀ inst, mutate labelFields inst "x" (.lit .null) = .error .InvalidValue) ∧
    (∀ inst, mutate labelFields inst "y" (.lit .null) = .error .InvalidValue) ∧
    (∀ ovs inst, construct labelFields ovs = .ok inst →
      getField inst "x" ≠ some (.lit .null) ∧
      getField inst "y" ≠ some (.lit .null)) := by
  refine ⟨rfl, rfl, fun _ => rfl, fun _ => rfl, fun ovs inst h => ⟨?_, ?_⟩⟩
  · exact no_null_stored h (by decide) (by decide)
  · exact no_null_stored h (by decide) (by decide)

/-- Witness for C4: a `Label` constructed with no overrides (and one
constructed with numeric coordinates) stores no null in `x` or `y`. -/
theorem label_xy_never_null_witness :
    (getField (defaults labelFields) "x" ≠ some (.lit .null) ∧
      getField (defaults labelFields) "y" ≠ some (.lit .null)) ∧
    construct labelFields [("x", .lit .null)] = .error .InvalidValue :=
  ⟨label_xy_never_null.2.2.2.2 [] (defaults labelFields) rfl,
   label_xy_never_null.1⟩

/-- C5: the default of `background_fill_color` and of `border_line_color`
is unset (null) for all three variants, overriding the non-unset defaults
their fill and line style groups give those sub-fields. -/
theorem unset_color_defaults :
    (∀ fields ∈ [labelFields, labelSetFields, titleFields],
      (findSpec fields "background_fill_color").map FieldSpec.default
          = some (some (.lit .null)) ∧
      (findSpec fields "border_line_color").map FieldSpec.default
          = some (some (.lit .null))) ∧
    (findSpec scalarFillProps "fill_color").map FieldSpec.default
        = some (some (.lit (.str "gray"))) ∧
    (findSpec scalarLineProps "line_color").map FieldSpec.default
        = some (some (.lit (.str "black"))) := by
  decide

/-- C6: a `LabelSet` constructed with no overrides has `x`, `y`, `text`
bound to the columns "x", "y", "text" and `angle`, `x_offset`, `y_offset`
set to the literal 0. -/
theorem labelset_defaults :
    construct labelSetFields [] = .ok (defaults labelSetFields) ∧
    getField (defaults labelSetFields) "x" = some (.column "x") ∧
    getField (defaults labelSetFields) "y" = some (.column "y") ∧
    getField (defaults labelSetFields) "text" = some (.column "text") ∧
    getField (defaults labelSetFields) "angle" = some (.lit (.num 0)) ∧
    getField (defaults labelSetFields) "x_offset" = some (.lit (.num 0)) ∧
    getField (defaults labelSetFields) "y_offset" = some (.lit (.num 0)) :=
  ⟨rfl, by decide⟩

/-- C7: a `Title` constructed with no overrides has text "",
vertical_align "bottom", align "left", text_line_height 1.0, offset 0,
standoff 10, text_font "helvetica", text_font_size "13px",
text_font_style "bold" and text_color "#444444". -/
theorem title_defaults :
    construct titleFields [] = .ok (defaults titleFields) ∧
    getField (defaults titleFields) "text" = some (.lit (.str "")) ∧
    getField (defaults titleFields) "vertical_align" = some (.lit (.str "bottom")) ∧
    getField (defaults titleFields) "align" = some (.lit (.str "left")) ∧
    getField (defaults titleFields) "text_line_height" = some (.lit (.num 1)) ∧
    getField (defaults titleFields) "offset" = some (.lit (.num 0)) ∧
    getField (defaults titleFields) "standoff" = some (.lit (.num 10)) ∧
    getField (defaults titleFields) "text_font" = some (.lit (.str "helvetica")) ∧
    getField (defaults titleFields) "text_font_size" = some (.lit (.str "13px")) ∧
    getField (defaults titleFields) "text_font_style" = some (.lit (.str "bold")) ∧
    getField (defaults titleFields) "text_color" = some (.lit (.str "#444444")) :=
  ⟨rfl, by decide⟩

/-- C8: a `Mutate` call is atomic with respect to validation — when it
reports an error the instance's observable state is exactly what it was
before the call, and when it succeeds exactly the targeted field changes
(a failing `Construct` likewise yields an error and no instance, which the
`Except` result type enforces by shape). -/
theorem mutate_atomic (fields : List FieldSpec) (inst : Instance)
    (n : String) (rv : RawValue) :
    ((mutateOrKeep fields inst n rv).2.isSome = true →
      (mutateOrKeep fields inst n rv).1 = inst) ∧
    ((mutateOrKeep fields inst n rv).2 = none →
      ∃ sv, (mutateOrKeep fields inst n rv).1 = setField inst n sv ∧
        getField (mutateOrKeep fields inst n rv).1 n = some sv ∧
        ∀ g, g ≠ n →
          getField (mutateOrKeep fields inst n rv).1 g = getField inst g) := by
  unfold mutateOrKeep
  rcases hm : mutate fields inst n rv with e | inst2
  · exact ⟨fun _ => rfl, fun hc => absurd hc (by simp)⟩
  · refine ⟨fun hs => absurd hs (by simp), fun _ => ?_⟩
    obtain ⟨fs, sv, hfs, hcv, rfl⟩ := applyOverride_ok hm
    have hname : fs.name = n := findSpec_name hfs
    refine ⟨sv, by rw [hname], ?_, ?_⟩
    · rw [setField, getField_cons, hname]; simp
    · intro g hg
      rw [setField, getField_cons, hname]
      simp [(Ne.symm hg)]

/-- Witness for C8: a rejected write (null into `x`) leaves the instance
untouched, and an accepted write (a string into `text`) changes only
`text`. -/
theorem mutate_atomic_witness :
    (mutateOrKeep labelFields [] "x" (.lit .null)).1 = [] ∧
    (∃ sv, (mutateOrKeep labelFields [] "text" (.lit (.str "hi"))).1
        = setField [] "text" sv ∧
      getField (mutateOrKeep labelFields [] "text" (.lit (.str "hi"))).1 "text"
        = some sv ∧
      ∀ g, g ≠ "text" →
        getField (mutateOrKeep labelFields [] "text" (.lit (.str "hi"))).1 g
          = getField ([] : Instance) g) :=
  ⟨(mutate_atomic labelFields [] "x" (.lit .null)).1 rfl,
   (mutate_atomic labelFields [] "text" (.lit (.str "hi"))).2 rfl⟩

/-- C9: serializing an instance of any of the three variants to the flat
field-name-to-value mapping and reconstructing an instance from that
mapping succeeds and yields an instance equal to the original field for
field. -/
theorem serialize_roundtrip :
    ∀ (fields : List FieldSpec) (inst : Instance),
      (fields = labelFields ∨ fields = labelSetFields ∨ fields = titleFields) →
      wellFormed fields inst = true →
      ∃ inst2, deserialize fields (serialize fields inst) = .ok inst2 ∧
        ∀ fs ∈ fields, getField inst2 fs.name = getField inst fs.name := by
  intro fields inst hv hwf
  have hnd : nodupNames fields := by
    rcases hv with rfl | rfl | rfl <;> decide
  have hm : ∀ p ∈ serialize fields inst,
      ∃ fs, findSpec fields p.1 = some fs ∧ checkStored fs p.2 = true := by
    intro p hp
    obtain ⟨fs, hfs, hname, hget⟩ := mem_serialize hp
    refine ⟨fs, hname ▸ findSpec_of_mem hnd hfs, ?_⟩
    have hall := List.all_eq_true.mp hwf fs hfs
    rw [hget] at hall
    exact hall
  refine ⟨(serialize fields inst).reverse ++ defaults fields,
    applyStoredList_ok _ _ hm, ?_⟩
  intro fs hfs
  rcases hget : getField inst fs.name with _ | sv
  · have hnk : fs.name ∉ ((serialize fields inst).reverse.map Prod.fst) := by
      intro hk
      rw [List.map_reverse, List.mem_reverse] at hk
      obtain ⟨p, hp, hp1⟩ := List.mem_map.mp hk
      obtain ⟨fs2, hfs2, hname2, hget2⟩ := mem_serialize hp
      have : fs2 = fs := name_inj hnd hfs2 hfs (by rw [hname2, hp1])
      rw [this] at hget2
      rw [hget] at hget2
      exact Option.noConfusion hget2
    rw [getField_append_of_not_key hnk]
    rw [getField_defaults hnd hfs]
    have hall := List.all_eq_true.mp hwf fs hfs
    rw [hget] at hall
    simpa using hall
  · have hmem : (fs.name, sv) ∈ (serialize fields inst).reverse :=
      List.mem_reverse.mpr (serialize_mem_of_get hfs hget)
    have hndk : ((serialize fields inst).reverse.map Prod.fst).Nodup := by
      rw [List.map_reverse]
      exact List.nodup_reverse.mpr (serialize_keys_nodup inst hnd)
    rw [getField_append_of_key hndk hmem]

/-- Witness for C9: the round trip observed on the default `Label`
instance. -/
theorem serialize_roundtrip_witness :
    ∃ inst2, deserialize labelFields (serialize labelFields (defaults labelFields))
        = .ok inst2 ∧
      ∀ fs ∈ labelFields,
        getField inst2 fs.name = getField (defaults labelFields) fs.name :=
  serialize_roundtrip labelFields (defaults labelFields) (Or.inl rfl) (by decide)

/-- C10: `LabelSet.x_units` and `LabelSet.y_units` are plain scalar enum
fields — not vectorizable, domain exactly \x7b"data","screen"\x7d, default
"data"; a column reference assigned to them is rejected, and on any
well-formed instance they hold exactly one of the two literals — while the
surrounding `x`, `y`, `text`, `angle`, `x_offset`, `y_offset` are all
vectorizable specs. -/
theorem labelset_units_are_scalar_enums :
    (∃ fs, findSpec labelSetFields "x_units" = some fs ∧
      fs.vectorizable = false ∧ fs.ftype = .enum ["data", "screen"] ∧
      fs.default = some (.lit (.str "data"))) ∧
    (∃ fs, findSpec labelSetFields "y_units" = some fs ∧
      fs.vectorizable = false ∧ fs.ftype = .enum ["data", "screen"] ∧
      fs.default = some (.lit (.str "data"))) ∧
    (∀ fs ∈ labelSetFields,
      fs.name = "x" ∨ fs.name = "y" ∨ fs.name = "text" ∨ fs.name = "angle" ∨
        fs.name = "x_offset" ∨ fs.name = "y_offset" → fs.vectorizable = true) ∧
    (∀ (inst : Instance) (c : String),
      mutate labelSetFields inst "x_units" (.column c) = .error .InvalidValue) ∧
    (∀ (inst : Instance) (c : String),
      mutate labelSetFields inst "y_units" (.column c) = .error .InvalidValue) ∧
    (∀ (inst : Instance) (u : String),
      wellFormed labelSetFields inst = true →
      ∀ sv, getField inst (u ++ "_units") = some sv →
        (u = "x" ∨ u = "y") →
        sv = .lit (.str "data") ∨ sv = .lit (.str "screen")) := by
  refine ⟨⟨enumField "x_units" spatialUnits "data", by decide, by decide, by decide, by decide⟩,
    ⟨enumField "y_units" spatialUnits "data", by decide, by decide, by decide, by decide⟩,
    by decide, fun _ _ => rfl, fun _ _ => rfl, ?_⟩
  intro inst u hwf sv hget hu
  have hxy : u ++ "_units" = "x_units" ∨ u ++ "_units" = "y_units" := by
    rcases hu with rfl | rfl
    · left; rfl
    · right; rfl
  have hmem : enumField (u ++ "_units") spatialUnits "data" ∈ labelSetFields := by
    rcases hxy with h | h <;> rw [h] <;> decide
  have hall := List.all_eq_true.mp hwf _ hmem
  simp only [enumField] at hall
  rw [hget] at hall
  dsimp only at hall
  rcases sv with v | c
  · rcases v with q | s | _
    · simp [checkStored, valueOk] at hall
    · simp only [checkStored, valueOk, spatialUnits] at hall
      have hs : s = "data" ∨ s = "screen" := by simpa using hall
      rcases hs with rfl | rfl
      · left; rfl
      · right; rfl
    · simp [checkStored, valueOk] at hall
  · simp [checkStored, enumField] at hall

/-- Witness for C10: on the default `LabelSet` instance, `x_units` holds
the literal "data", and assigning a column reference to it fails. -/
theorem labelset_units_are_scalar_enums_witness :
    ((StoredValue.lit (.str "data")) = .lit (.str "data") ∨
      (StoredValue.lit (.str "data")) = .lit (.str "screen")) ∧
    mutate labelSetFields (defaults labelSetFields) "x_units" (.column "u")
        = .error .InvalidValue :=
  ⟨labelset_units_are_scalar_enums.2.2.2.2.2 (defaults labelSetFields) "x"
      (by decide) (.lit (.str "data")) (by decide) (Or.inl rfl),
   labelset_units_are_scalar_enums.2.2.2.1 (defaults labelSetFields) "u"⟩

end Bokeh
